import Mathlib

/-!
Verification development for the sentiment-aura repository.

The definitions below are a shallow embedding of the JavaScript source:

* `src/sentiment-aura-backend/server.js` — field normalizers
  (`normalizeSentiment`, `deriveConfidence`, `deriveTone`,
  `deriveSentimentLabel`, `deriveSummary`), the keyword extractor
  (`extractKeywords`), the response builder (`buildAnalysisResponse`),
  the JSON recovery parser (`parseJsonFromText`) and the retrying
  classifier client (`callGeminiAPI`).
* `src/sentiment-aura-frontend/src/hooks/useAudioAnalyzer.js` — the
  request orchestrator (`callBackendAPI`, `provideFallbackAnalysis`).
* `src/sentiment-aura-frontend/src/App.jsx` — the per-frame easing step
  for the displayed sentiment (`easeStep`).

JavaScript numbers are modelled as exact rationals; strings are Lean
strings manipulated through their character lists (all inputs exercised
by the theorems are ASCII, where JS UTF-16 indexing and Lean character
indexing agree). Rational arithmetic inside executable definitions goes
through `qadd`/`qsub`/`qmul`/`qdiv` — definitionally evaluable wrappers
proved equal to the field operations of `ℚ` — so that concrete runs of
the model reduce inside the kernel.
-/

set_option maxRecDepth 8000

/-- Addition on `ℚ` through `Rat.divInt`, reducible in the kernel. -/
def qadd (a b : ℚ) : ℚ :=
  Rat.divInt (a.num * (b.den : ℤ) + b.num * (a.den : ℤ)) ((a.den : ℤ) * (b.den : ℤ))

/-- Multiplication on `ℚ` through `Rat.divInt`, reducible in the kernel. -/
def qmul (a b : ℚ) : ℚ :=
  Rat.divInt (a.num * b.num) ((a.den : ℤ) * (b.den : ℤ))

/-- Subtraction on `ℚ` through `Rat.divInt`, reducible in the kernel. -/
def qsub (a b : ℚ) : ℚ :=
  Rat.divInt (a.num * (b.den : ℤ) - b.num * (a.den : ℤ)) ((a.den : ℤ) * (b.den : ℤ))

/-- Division on `ℚ` through `Rat.divInt`, reducible in the kernel. -/
def qdiv (a b : ℚ) : ℚ :=
  Rat.divInt (a.num * (b.den : ℤ)) ((a.den : ℤ) * b.num)

/-- A JavaScript value, as far as the analysis pipeline inspects values:
`null`, `undefined`, numbers (exact rationals), strings, booleans,
arrays and plain objects. -/
inductive JSVal : Type where
  | null : JSVal
  | undefined : JSVal
  | num (q : ℚ) : JSVal
  | str (s : String) : JSVal
  | bool (b : Bool) : JSVal
  | arr (xs : List JSVal) : JSVal
  | obj (fields : List (String × JSVal)) : JSVal

/-- JavaScript truthiness of a value (`if (v)`). `NaN` is not modelled:
numbers are exact rationals. -/
def truthy : JSVal → Bool
  | .null => false
  | .undefined => false
  | .num q => q ≠ 0
  | .str s => s ≠ ""
  | .bool b => b
  | .arr _ => true
  | .obj _ => true

/-- Whether a value is `null` or `undefined` (the `??` operator's test). -/
def isNullish : JSVal → Bool
  | .null => true
  | .undefined => true
  | _ => false

/-- Whether a value is a number (`typeof v === "number"`). -/
def JSVal.isNum : JSVal → Bool
  | .num _ => true
  | _ => false

/-- First-match association lookup, as JS property access on a parsed
JSON object (`JSON.parse` keeps a single binding per key). -/
def fieldLookup : List (String × JSVal) → String → Option JSVal
  | [], _ => none
  | (k, v) :: rest, key => if k = key then some v else fieldLookup rest key

/-- Optional-chained property access `v?.key`: `undefined` unless `v` is
an object carrying the key (none of the keys used by the pipeline exist
on primitives or arrays). -/
def jsGet (v : JSVal) (key : String) : JSVal :=
  match v with
  | .obj fields =>
      match fieldLookup fields key with
      | some x => x
      | none => .undefined
  | _ => .undefined

/-- Association lookup into a rational-valued map (used for
`SENTIMENT_MAP` and the keyword frequency table). -/
def mapLookup : List (String × ℚ) → String → Option ℚ
  | [], _ => none
  | (k, v) :: rest, key => if k = key then some v else mapLookup rest key

/-- `Map.set(k, old + d)` keeping insertion order: update in place when
the key exists, append otherwise (JS `Map` iteration order). -/
def mapIncr : List (String × ℚ) → String → ℚ → List (String × ℚ)
  | [], key, d => [(key, d)]
  | (k, v) :: rest, key, d =>
      if k = key then (k, qadd v d) :: rest else (k, v) :: mapIncr rest key d

/-- ASCII lower-casing of a character, as `String.prototype.toLowerCase`
acts on the ASCII range (all labels exercised are ASCII). -/
def lowerChar (c : Char) : Char :=
  if 65 ≤ c.toNat ∧ c.toNat ≤ 90 then Char.ofNat (c.toNat + 32) else c

/-- `s.toLowerCase()` on ASCII text. -/
def toLowerStr (s : String) : String :=
  String.mk (s.data.map lowerChar)

/-- Whitespace recognised by `String.prototype.trim` and the `\s` regex
class, restricted to ASCII (space, tab, newline, carriage return, form
feed, vertical tab). -/
def isJsWs (c : Char) : Bool :=
  c = ' ' ∨ c = '\t' ∨ c = '\n' ∨ c = '\r' ∨ c = '\x0c' ∨ c = '\x0b'

/-- Trim leading and trailing JS whitespace from a character list. -/
def trimChars (l : List Char) : List Char :=
  ((l.dropWhile isJsWs).reverse.dropWhile isJsWs).reverse

/-- `s.trim()`. -/
def jsTrim (s : String) : String :=
  String.mk (trimChars s.data)

/-- `s.slice(0, n)` for ASCII text: the first `n` characters. -/
def jsSlice (n : ℕ) (s : String) : String :=
  String.mk (s.data.take n)

/-- A regex word character `\w`, i.e. `[A-Za-z0-9_]`. -/
def isWordChar (c : Char) : Bool :=
  (65 ≤ c.toNat ∧ c.toNat ≤ 90) ∨ (97 ≤ c.toNat ∧ c.toNat ≤ 122) ∨
    (48 ≤ c.toNat ∧ c.toNat ≤ 57) ∨ c = '_'

/-- `text.replace(/[^\w\s]/g, " ")`: non-word, non-space characters
become spaces. -/
def replaceNonWord (l : List Char) : List Char :=
  l.map (fun c => if isWordChar c ∨ isJsWs c then c else ' ')

/-- Split a character list at every occurrence of a separator char. -/
def splitOnChar (c : Char) (cs : List Char) : List (List Char) :=
  cs.foldr
    (fun x acc =>
      if x = c then [] :: acc
      else
        match acc with
        | h :: t => (x :: h) :: t
        | [] => [[x]])
    [[]]

/-- `s.split(/\s+/).filter(Boolean)`: maximal runs of non-whitespace. -/
def splitWsTokens (l : List Char) : List String :=
  (((splitOnChar ' ' (l.map (fun c => if isJsWs c then ' ' else c))).filter
      (· ≠ [])).map String.mk)

/-- Drop one trailing carriage return, so that splitting on newline
models the `/\r?\n/` separator. -/
def stripCR (l : List Char) : List Char :=
  if l.getLast? = some '\r' then l.dropLast else l

/-- `source.split(/\r?\n/)` for a string. -/
def splitLines (s : String) : List (List Char) :=
  (splitOnChar '\n' s.data).map stripCR

/-- The `STOPWORDS` set of `server.js`. -/
def STOPWORDS : List String :=
  ["the", "and", "a", "an", "in", "on", "at", "for", "to", "of", "is", "are",
   "was", "were", "it", "this", "that", "with", "as", "by", "from", "be",
   "have", "has", "had", "i", "we", "you", "they", "he", "she", "them",
   "but", "or", "not", "so", "if", "then", "there", "their", "our", "my",
   "your"]

/-- The `SENTIMENT_MAP` table of `server.js`. -/
def SENTIMENT_MAP : List (String × ℚ) :=
  [("positive", mkRat 4 5), ("neutral", mkRat 1 2), ("negative", mkRat 1 5)]

/-- The negative threshold of `SENTIMENT_THRESHOLDS` in `server.js`. -/
def THRESHOLD_NEGATIVE : ℚ := mkRat 4 10

/-- The positive threshold of `SENTIMENT_THRESHOLDS` in `server.js`. -/
def THRESHOLD_POSITIVE : ℚ := mkRat 6 10

/-- Membership in `STOPWORDS`. -/
def isStopword (w : String) : Bool := STOPWORDS.contains w

/-- The token/bigram frequency loop of `extractKeywords` in `server.js`:
skip stopwords and tokens of length at most 2; give each surviving token
weight 1 and each bigram whose two words are both non-stopwords weight
1.2, accumulating in insertion order. -/
def keywordFreqLoop : List String → List (String × ℚ) → List (String × ℚ)
  | [], freq => freq
  | token :: rest, freq =>
      if isStopword token ∨ token.length ≤ 2 then keywordFreqLoop rest freq
      else
        let freq1 := mapIncr freq token 1
        let freq2 :=
          match rest with
          | next :: _ =>
              if ¬ isStopword token ∧ ¬ isStopword next then
                mapIncr freq1 (token ++ " " ++ next) (mkRat 6 5)
              else freq1
          | [] => freq1
        keywordFreqLoop rest freq2

/-- Insert an entry into a weight-descending list, after all entries of
weight greater than or equal to its own (stability of JS `sort` with
comparator `(a, b) => b[1] - a[1]`). -/
def insertDesc (x : String × ℚ) : List (String × ℚ) → List (String × ℚ)
  | [] => [x]
  | y :: ys => if x.2 > y.2 then x :: y :: ys else y :: insertDesc x ys

/-- Stable sort by weight descending, processing entries in insertion
order. -/
def sortDesc (l : List (String × ℚ)) : List (String × ℚ) :=
  l.foldl (fun acc x => insertDesc x acc) []

/-- `extractKeywords(text, limit)` of `server.js`: tokenize by replacing
non-word characters with spaces, lower-casing and splitting on
whitespace; weight tokens and bigrams; sort by weight descending
(stable) and return the first `limit` trimmed entries. -/
def extractKeywords (text : String) (limit : ℕ := 6) : List String :=
  if text = "" then []
  else
    let tokens := splitWsTokens ((replaceNonWord text.data).map lowerChar)
    let freq := keywordFreqLoop tokens []
    ((sortDesc freq).take limit).map (fun e => jsTrim e.1)

/-- Decimal rendering of a rational, used only to approximate JS number
formatting inside `String(v)`; no theorem stringifies a number. -/
def ratToString (q : ℚ) : String :=
  if q.den = 1 then toString q.num
  else toString q.num ++ "/" ++ toString q.den

/-- `String(v)` with bounded recursion into arrays (fuel bounds array
nesting; `jsToString` supplies fuel exceeding any value in scope).
Numbers use `ratToString`, an approximation of JS decimal formatting;
no theorem stringifies a number or a nested array. -/
def jsToStringF : ℕ → JSVal → String
  | _, .str s => s
  | _, .null => "null"
  | _, .undefined => "undefined"
  | _, .bool true => "true"
  | _, .bool false => "false"
  | _, .num q => ratToString q
  | 0, .arr _ => ""
  | fuel + 1, .arr xs =>
      String.intercalate "," (xs.map (jsToStringF fuel))
  | _, .obj _ => "[object Object]"

/-- `String(v)`. -/
def jsToString (v : JSVal) : String := jsToStringF 100 v

/-- `normalizeSentiment(value, label)` of `server.js`: numbers in
(1, 100] are divided by 100 then clamped to [0, 1]; otherwise a truthy
label is lower-cased and looked up in `SENTIMENT_MAP` with default 0.5;
otherwise 0.5. -/
def normalizeSentiment (value label : JSVal) : ℚ :=
  match value with
  | .num q =>
      let q2 := if 1 < q ∧ q ≤ 100 then qdiv q 100 else q
      max 0 (min 1 q2)
  | _ =>
      if truthy label then
        (mapLookup SENTIMENT_MAP (toLowerStr (jsToString label))).getD (mkRat 1 2)
      else mkRat 1 2

/-- `deriveConfidence(sentiment)` of `server.js`:
`clamp(0.4 + |s - 0.5| * 1.1, 0.5, 0.99)`. -/
def deriveConfidence (sentiment : ℚ) : ℚ :=
  max (mkRat 1 2)
    (min (mkRat 99 100)
      (qadd (mkRat 4 10) (qmul |qsub sentiment (mkRat 1 2)| (mkRat 11 10))))

/-- `deriveTone(sentiment)` of `server.js`. -/
def deriveTone (sentiment : ℚ) : String :=
  if sentiment ≥ mkRat 7 10 then "positive"
  else if sentiment ≤ mkRat 3 10 then "negative"
  else "neutral"

/-- `deriveSentimentLabel(sentiment)` of `server.js`: strictly below 0.4
is negative, strictly above 0.6 is positive, neutral in between. -/
def deriveSentimentLabel (sentiment : ℚ) : String :=
  if sentiment < THRESHOLD_NEGATIVE then "negative"
  else if sentiment > THRESHOLD_POSITIVE then "positive"
  else "neutral"

/-- `deriveSummary(parsed, rawText, originalText)` of `server.js`: a
truthy `parsed.short_summary` is stringified and returned verbatim;
otherwise the first two trimmed non-blank lines of `rawText` (or of
`originalText` when `rawText` is empty) joined with a space and cut to
220 characters; if there is no non-blank line, the first 220 characters
of `originalText`. -/
def deriveSummary (parsed : JSVal) (rawText originalText : String) : String :=
  if truthy (jsGet parsed "short_summary") then
    jsToString (jsGet parsed "short_summary")
  else
    let source := if rawText ≠ "" then rawText else originalText
    let lines := ((splitLines source).map trimChars).filter (· ≠ [])
    if lines ≠ [] then
      String.mk ((List.intercalate [' '] (lines.take 2)).take 220)
    else jsSlice 220 originalText

/-- `Number(x.toFixed(3))` on an exact rational: round to 3 decimal
places, ties toward positive infinity (the ECMA `toFixed` tie rule
"pick the larger n"). -/
def round3 (q : ℚ) : ℚ :=
  Rat.divInt ⌊qadd (qmul q 1000) (mkRat 1 2)⌋ 1000

/-- `Array.from(new Set(l))`: first occurrences in order, compared by
exact string equality. -/
def dedupFirstGo (seen : List String) : List String → List String
  | [] => []
  | x :: xs =>
      if x ∈ seen then dedupFirstGo seen xs
      else x :: dedupFirstGo (x :: seen) xs

/-- De-duplicate a string list keeping the first occurrence of each
element, in order. -/
def dedupFirst (l : List String) : List String := dedupFirstGo [] l

/-- The `data` record assembled by `buildAnalysisResponse` in
`server.js` (the envelope's `success`/`metadata` wrapper is not
modelled; every claim is about the `data` payload). -/
structure BuiltData : Type where
  model : String
  sentiment : ℚ
  sentiment_label : String
  confidence : ℚ
  keywords : List String
  tone : JSVal
  short_summary : String

/-- The model identifier used when the environment sets none
(`Config.MODEL` default). -/
def MODEL_NAME : String := "gemini-2.5-flash"

/-- The fate of `parsed?.confidence ?? deriveConfidence(sentiment)`
followed by `confidence.toFixed(3)`: a nullish field falls back to the
derived confidence; a numeric field is used unvalidated; any other
value makes `toFixed` throw a `TypeError`. -/
def confidenceResult (cv : JSVal) (sentiment : ℚ) : Except String ℚ :=
  match cv with
  | .null => .ok (deriveConfidence sentiment)
  | .undefined => .ok (deriveConfidence sentiment)
  | .num q => .ok q
  | _ => .error "confidence.toFixed is not a function"

/-- The keyword list before de-duplication in `buildAnalysisResponse`:
`parsed.keywords` stringified when it is a non-empty array, otherwise
`extractKeywords` over the first non-empty of summary, raw text,
original text. -/
def keywordPool (parsed : JSVal) (shortSummary rawText originalText : String) :
    List String :=
  let fromParsed :=
    match jsGet parsed "keywords" with
    | .arr xs => xs.map jsToString
    | _ => []
  if fromParsed = [] then
    let keywordSource :=
      if shortSummary ≠ "" then shortSummary
      else if rawText ≠ "" then rawText else originalText
    extractKeywords keywordSource 6
  else fromParsed

/-- The sentiment computed first in `buildAnalysisResponse`. -/
def buildSentiment (parsed : JSVal) : ℚ :=
  normalizeSentiment (jsGet parsed "sentiment") (jsGet parsed "sentiment_label")

/-- The `data` record produced by `buildAnalysisResponse` once the
confidence value survived `toFixed`. -/
def buildCore (parsed : JSVal) (rawText originalText : String)
    (confidence : ℚ) : BuiltData :=
  let sentiment := buildSentiment parsed
  let tone :=
    if truthy (jsGet parsed "tone") then jsGet parsed "tone"
    else .str (deriveTone sentiment)
  let short_summary := deriveSummary parsed rawText originalText
  let keywords :=
    (dedupFirst (keywordPool parsed short_summary rawText originalText)).take 7
  let sentiment_label :=
    if truthy (jsGet parsed "sentiment_label") then
      jsToString (jsGet parsed "sentiment_label")
    else deriveSentimentLabel sentiment
  { model := MODEL_NAME
    sentiment := sentiment
    sentiment_label := sentiment_label
    confidence := round3 confidence
    keywords := keywords
    tone := tone
    short_summary := short_summary }

/-- `buildAnalysisResponse(parsed, geminiRaw, rawText, originalText)` of
`server.js`, restricted to the `data` payload. The only way it can
throw is `confidence.toFixed` on a non-numeric, non-nullish parsed
confidence, surfaced here as `Except.error`. -/
def buildAnalysisResponse (parsed : JSVal) (rawText originalText : String) :
    Except String BuiltData :=
  match confidenceResult (jsGet parsed "confidence") (buildSentiment parsed) with
  | .error e => .error e
  | .ok confidence => .ok (buildCore parsed rawText originalText confidence)

/-- JSON whitespace (`ws` of ECMA-404): space, tab, newline, carriage
return. -/
def jsonWsB (c : Char) : Bool :=
  c = ' ' ∨ c = '\t' ∨ c = '\n' ∨ c = '\r'

/-- Value of a hex digit, for `\u` escapes. -/
def hexVal (c : Char) : Option ℕ :=
  if 48 ≤ c.toNat ∧ c.toNat ≤ 57 then some (c.toNat - 48)
  else if 97 ≤ c.toNat ∧ c.toNat ≤ 102 then some (c.toNat - 87)
  else if 65 ≤ c.toNat ∧ c.toNat ≤ 70 then some (c.toNat - 55)
  else none

/-- Single-character JSON string escapes. -/
def escChar (c : Char) : Option Char :=
  if c = '"' then some '"'
  else if c = '\\' then some '\\'
  else if c = '/' then some '/'
  else if c = 'b' then some '\x08'
  else if c = 'f' then some '\x0c'
  else if c = 'n' then some '\n'
  else if c = 'r' then some '\r'
  else if c = 't' then some '\t'
  else none

/-- Body of a JSON string after its opening quote: characters up to the
closing quote, handling escapes, rejecting raw control characters and
unterminated strings (as `JSON.parse` does; lone-surrogate `\u` escapes,
which cannot arise in the inputs exercised, collapse through
`Char.ofNat`). -/
def parseJStringChars : List Char → Option (List Char × List Char)
  | [] => none
  | '\\' :: 'u' :: a :: b :: c :: d :: rest =>
      match hexVal a, hexVal b, hexVal c, hexVal d with
      | some ha, some hb, some hc, some hd =>
          (parseJStringChars rest).map
            (fun p => (Char.ofNat (((ha * 16 + hb) * 16 + hc) * 16 + hd) :: p.1, p.2))
      | _, _, _, _ => none
  | '\\' :: e :: rest =>
      match escChar e with
      | some ce => (parseJStringChars rest).map (fun p => (ce :: p.1, p.2))
      | none => none
  | '"' :: rest => some ([], rest)
  | c :: rest =>
      if c.toNat < 32 then none
      else (parseJStringChars rest).map (fun p => (c :: p.1, p.2))

/-- Numeric value of a digit run. -/
def digitsToNat (l : List Char) : ℕ :=
  l.foldl (fun n c => n * 10 + (c.toNat - 48)) 0

/-- Exponent digits with optional sign, after `e`/`E`. -/
def parseExpTail (cs : List Char) : Option (ℤ × List Char) :=
  let p : ℤ × List Char :=
    match cs with
    | '+' :: rest => (1, rest)
    | '-' :: rest => (-1, rest)
    | _ => (1, cs)
  let d := p.2.span (·.isDigit)
  if d.1 = [] then none else some (p.1 * (digitsToNat d.1 : ℤ), d.2)

/-- Optional exponent part of a JSON number. -/
def parseExpPart (cs : List Char) : Option (ℤ × List Char) :=
  match cs with
  | 'e' :: rest => parseExpTail rest
  | 'E' :: rest => parseExpTail rest
  | _ => some (0, cs)

/-- Optional fraction part of a JSON number. -/
def parseFracPart (cs : List Char) : Option (List Char × List Char) :=
  match cs with
  | '.' :: rest =>
      let p := rest.span (·.isDigit)
      if p.1 = [] then none else some (p.1, p.2)
  | _ => some ([], cs)

/-- Unsigned JSON number (JSON forbids leading zeros). -/
def parseJNumberPos (cs : List Char) : Option (ℚ × List Char) :=
  let ip := cs.span (·.isDigit)
  if ip.1 = [] then none
  else if 2 ≤ ip.1.length ∧ ip.1.head? = some '0' then none
  else
    match parseFracPart ip.2 with
    | none => none
    | some (frac, cs2) =>
        match parseExpPart cs2 with
        | none => none
        | some (e, cs3) =>
            let mantissa : ℤ := (digitsToNat (ip.1 ++ frac) : ℤ)
            let scale : ℤ := e - (frac.length : ℤ)
            let q : ℚ :=
              if 0 ≤ scale then Rat.divInt (mantissa * (10 ^ scale.toNat : ℤ)) 1
              else Rat.divInt mantissa (10 ^ (-scale).toNat : ℤ)
            some (q, cs3)

/-- A JSON number with optional leading minus. -/
def parseJNumber (cs : List Char) : Option (ℚ × List Char) :=
  match cs with
  | '-' :: rest => (parseJNumberPos rest).map (fun p => (-p.1, p.2))
  | _ => parseJNumberPos cs

/-- `JSON.parse` duplicate keys: the later value wins, the first
position is kept. -/
def objSet : List (String × JSVal) → String → JSVal → List (String × JSVal)
  | [], k, v => [(k, v)]
  | (k0, v0) :: rest, k, v =>
      if k0 = k then (k0, v) :: rest else (k0, v0) :: objSet rest k v

mutual

/-- A JSON value (recursive descent over ECMA-404, fuel-bounded; the
fuel supplied by `jsonParseChars` exceeds any possible recursion
depth). -/
def parseJValue : ℕ → List Char → Option (JSVal × List Char)
  | 0, _ => none
  | fuel + 1, cs =>
      match cs.dropWhile jsonWsB with
      | '\x7b' :: rest => parseJObject fuel rest
      | '[' :: rest => parseJArray fuel rest
      | '"' :: rest =>
          (parseJStringChars rest).map (fun p => (.str (String.mk p.1), p.2))
      | 't' :: 'r' :: 'u' :: 'e' :: rest => some (.bool true, rest)
      | 'f' :: 'a' :: 'l' :: 's' :: 'e' :: rest => some (.bool false, rest)
      | 'n' :: 'u' :: 'l' :: 'l' :: rest => some (.null, rest)
      | c :: rest =>
          if c = '-' ∨ c.isDigit then
            (parseJNumber (c :: rest)).map (fun p => (.num p.1, p.2))
          else none
      | [] => none

/-- A JSON object body, after the opening brace. -/
def parseJObject : ℕ → List Char → Option (JSVal × List Char)
  | 0, _ => none
  | fuel + 1, cs =>
      match cs.dropWhile jsonWsB with
      | '\x7d' :: rest => some (.obj [], rest)
      | cs1 => (parseJMembers fuel cs1 []).map (fun p => (.obj p.1, p.2))

/-- One or more `key : value` members followed by the closing brace. -/
def parseJMembers : ℕ → List Char → List (String × JSVal) →
    Option (List (String × JSVal) × List Char)
  | 0, _, _ => none
  | fuel + 1, cs, acc =>
      match cs.dropWhile jsonWsB with
      | '"' :: rest =>
          match parseJStringChars rest with
          | none => none
          | some (key, rest2) =>
              match rest2.dropWhile jsonWsB with
              | ':' :: rest3 =>
                  match parseJValue fuel rest3 with
                  | none => none
                  | some (v, rest4) =>
                      let acc2 := objSet acc (String.mk key) v
                      match rest4.dropWhile jsonWsB with
                      | ',' :: rest5 => parseJMembers fuel rest5 acc2
                      | '\x7d' :: rest5 => some (acc2, rest5)
                      | _ => none
              | _ => none
      | _ => none

/-- A JSON array body, after the opening bracket. -/
def parseJArray : ℕ → List Char → Option (JSVal × List Char)
  | 0, _ => none
  | fuel + 1, cs =>
      match cs.dropWhile jsonWsB with
      | ']' :: rest => some (.arr [], rest)
      | cs1 => (parseJElems fuel cs1 []).map (fun p => (.arr p.1.reverse, p.2))

/-- One or more array elements followed by the closing bracket
(accumulated in reverse). -/
def parseJElems : ℕ → List Char → List JSVal →
    Option (List JSVal × List Char)
  | 0, _, _ => none
  | fuel + 1, cs, acc =>
      match parseJValue fuel cs with
      | none => none
      | some (v, rest) =>
          match rest.dropWhile jsonWsB with
          | ',' :: rest2 => parseJElems fuel rest2 (v :: acc)
          | ']' :: rest2 => some (v :: acc, rest2)
          | _ => none

end

/-- `JSON.parse(text)` over a character list: one value surrounded by
whitespace only. -/
def jsonParseChars (cs : List Char) : Option JSVal :=
  match parseJValue (2 * cs.length + 2) cs with
  | some (v, rest) => if rest.dropWhile jsonWsB = [] then some v else none
  | none => none

/-- The `rawText.match(/\{[\s\S]*\}/)` span: from the first opening
brace to the last closing brace, provided the latter comes after the
former (leftmost-greedy semantics of the regex). -/
def extractBraceSpan (s : String) : Option (List Char) :=
  let cs := s.data
  match cs.findIdx? (· = '\x7b') with
  | none => none
  | some i =>
      match cs.reverse.findIdx? (· = '\x7d') with
      | none => none
      | some k =>
          let j := cs.length - 1 - k
          if i < j then some ((cs.drop i).take (j - i + 1)) else none

/-- Recognise `\s*` followed by the closing character, returning the
remainder after the close. -/
def matchWsThen (close : Char) (cs : List Char) : Option (List Char) :=
  match cs.dropWhile isJsWs with
  | d :: rem => if d = close then some rem else none
  | [] => none

/-- Fuel-bounded body of the global regex replacement of `,\s*close`
by `close`, scanning left to right and resuming after each
replacement. -/
def replCommaCloseF (close : Char) : ℕ → List Char → List Char
  | 0, cs => cs
  | _ + 1, [] => []
  | f + 1, c :: rest =>
      if c = ',' then
        match matchWsThen close rest with
        | some rem => close :: replCommaCloseF close f rem
        | none => c :: replCommaCloseF close f rest
      else c :: replCommaCloseF close f rest

/-- `.replace(/,\s*close/g, close)` for `close` one of the two closing
brackets. -/
def replCommaClose (close : Char) (cs : List Char) : List Char :=
  replCommaCloseF close (cs.length + 1) cs

/-- `.replace(/'/g, String.fromCharCode(34))`: single quotes become
double quotes. -/
def replQuotes (cs : List Char) : List Char :=
  cs.map (fun c => if c = '\x27' then '"' else c)

/-- `parseJsonFromText(rawText)` of `server.js`: take the greedy brace
span, try a strict parse, then retry once on the repaired text
(trailing commas stripped before both closers, single quotes replaced);
`none` models the `null` returns. -/
def parseJsonFromText (rawText : String) : Option JSVal :=
  if rawText = "" then none
  else
    match extractBraceSpan rawText with
    | none => none
    | some span =>
        match jsonParseChars span with
        | some v => some v
        | none =>
            let cleaned :=
              replQuotes (replCommaClose ']' (replCommaClose '\x7d' span))
            jsonParseChars cleaned

/-- Outcome of one attempted HTTP call to the Gemini endpoint inside
`callGeminiAPI` of `server.js`: success with the response body, or an
axios error with the optional HTTP status of the error response and the
resolved error message (`err.response.data.error.message` falling back
to `err.message`; `none` as status models a timeout or network error
with no response). -/
inductive AttemptOutcome : Type where
  | ok (data : JSVal) : AttemptOutcome
  | fail (status : Option ℕ) (msg : String) : AttemptOutcome

/-- The `GeminiAPIError` thrown by `callGeminiAPI`: message, HTTP-style
status, and the `attempts` count stored in its details. -/
structure GeminiError : Type where
  status : ℕ
  message : String
  attempts : ℕ
deriving DecidableEq

/-- Observable result of one `callGeminiAPI` run: the returned data or
the thrown error, the number of attempts actually made, and the backoff
delays (ms) awaited between attempts. -/
structure GeminiRun : Type where
  result : Except GeminiError JSVal
  attemptsMade : ℕ
  delays : List ℕ

/-- `lastError?.response?.status || 500` of `server.js`. -/
def geminiStatusOf : Option (Option ℕ × String) → ℕ
  | some (some s, _) => if s = 0 then 500 else s
  | some (none, _) => 500
  | none => 500

/-- The message resolution of `server.js`:
`...message || lastError?.message || "Unknown error"`, prefixed by the
`GeminiAPIError` text. -/
def geminiMessageOf : Option (Option ℕ × String) → String
  | some (_, m) => if m = "" then "Gemini API call failed: Unknown error"
      else "Gemini API call failed: " ++ m
  | none => "Gemini API call failed: Unknown error"

/-- The thrown `GeminiAPIError` after the loop of `callGeminiAPI`
exits: last status and message, and `attempts: retries + 1` — the
configured maximum, independent of how many attempts ran. -/
def geminiThrow (lastErr : Option (Option ℕ × String)) (retries made : ℕ)
    (delays : List ℕ) : GeminiRun :=
  { result := .error
      { status := geminiStatusOf lastErr
        message := geminiMessageOf lastErr
        attempts := retries + 1 }
    attemptsMade := made
    delays := delays }

/-- The terminal-failure test of `callGeminiAPI`: an HTTP status in
[400, 500) is not retried. -/
def isTerminalStatus : Option ℕ → Bool
  | some s => 400 ≤ s ∧ s < 500
  | none => false

/-- The retry loop of `callGeminiAPI` in `server.js`. `env n` is the
outcome of the HTTP call of attempt `n`; `fuel` counts the remaining
loop iterations (`retries + 1 - attempt`), so recursion is structural.
A failure with status in [400, 500) breaks out of the loop without
retrying; otherwise a backoff of `min(1000 * 2 ^ attempt, 5000)` ms
precedes the next attempt while attempts remain. -/
def geminiLoop (env : ℕ → AttemptOutcome) (retries : ℕ) :
    ℕ → ℕ → List ℕ → Option (Option ℕ × String) → GeminiRun
  | 0, attempt, delays, lastErr => geminiThrow lastErr retries attempt delays
  | fuel + 1, attempt, delays, lastErr =>
      match env attempt with
      | .ok data =>
          { result := .ok data, attemptsMade := attempt + 1, delays := delays }
      | .fail st msg =>
          let le := some (st, msg)
          if isTerminalStatus st then
            geminiThrow le retries (attempt + 1) delays
          else if attempt < retries then
            geminiLoop env retries fuel (attempt + 1)
              (delays ++ [min (1000 * 2 ^ attempt) 5000]) le
          else geminiThrow le retries (attempt + 1) delays

/-- `callGeminiAPI(text, retries)` of `server.js`, as a function of the
per-attempt outcomes (the request payload built from `text` does not
influence control flow). -/
def callGeminiAPI (env : ℕ → AttemptOutcome) (retries : ℕ) : GeminiRun :=
  geminiLoop env retries (retries + 1) 0 [] none

/-- The fallback analysis record built by `provideFallbackAnalysis` in
`useAudioAnalyzer.js` (hook variant with dedup and retries). -/
structure FallbackData : Type where
  model : String
  sentiment : ℚ
  sentiment_label : String
  confidence : ℚ
  keywords : List String
  tone : String
  short_summary : String
  error : Bool

/-- The keyword derivation of `provideFallbackAnalysis`: lower-case,
strip punctuation to spaces, split on whitespace, keep words longer
than 3 characters, de-duplicate exactly, take 5. -/
def fallbackKeywords (text : String) : List String :=
  let words :=
    (splitWsTokens (replaceNonWord (toLowerStr text).data)).filter
      (fun w => 3 < w.length)
  (dedupFirst words).take 5

/-- `provideFallbackAnalysis(text)` of `useAudioAnalyzer.js`: the local
fallback record with sentiment 0.5, neutral label and tone, confidence
0.3, locally derived keywords and the first 100 characters of the input
as summary. -/
def provideFallbackAnalysis (text : String) : FallbackData :=
  { model := "fallback"
    sentiment := mkRat 1 2
    sentiment_label := "neutral"
    confidence := mkRat 3 10
    keywords := fallbackKeywords text
    tone := "neutral"
    short_summary := jsSlice 100 text
    error := true }

/-- Outcome of one HTTP request issued by `callBackendAPI` in
`useAudioAnalyzer.js`: an HTTP 200 envelope with `success && data`
(`okResult`), with `success === false` (`okFailure`, which the hook
turns into a thrown `AudioCaptureError`), or with an unexpected shape
(`okWeird`); an abort by the timeout; a network error with no response;
or an HTTP error response. -/
inductive ReqOutcome : Type where
  | okResult (data : JSVal) : ReqOutcome
  | okFailure (msg : String) : ReqOutcome
  | okWeird (data : JSVal) : ReqOutcome
  | abortTimeout : ReqOutcome
  | netError : ReqOutcome
  | httpError (resp : JSVal) : ReqOutcome

/-- A payload delivered to `onAnalysisResult`. -/
inductive Delivered : Type where
  | analysis (data : JSVal) : Delivered
  | raw (data : JSVal) : Delivered
  | fallback (fb : FallbackData) : Delivered

/-- An error surfaced to the `onError` observer by `callBackendAPI`. -/
inductive ErrSurfaced : Type where
  | timeout : ErrSurfaced
  | network : ErrSurfaced
  | backend (resp : JSVal) : ErrSurfaced

/-- Observable state of one orchestrator session:
`lastTranscript` is `lastTranscriptRef.current`; `reqCount` counts HTTP
requests issued so far (indexing the outcome environment); `requests`,
`delivered` and `errors` log the issued requests, the payloads handed
to `onAnalysisResult` and the errors handed to `onError`, in order. -/
structure OrchState : Type where
  lastTranscript : String
  reqCount : ℕ
  requests : List String
  delivered : List Delivered
  errors : List ErrSurfaced

/-- `CONFIG.MAX_RETRIES` of `useAudioAnalyzer.js`. -/
def MAX_RETRIES : ℕ := 3

/-- The body of `callBackendAPI(text, retryCount)` in
`useAudioAnalyzer.js`, under the single-threaded event-loop semantics:
reject empty or duplicate text, assign `lastTranscriptRef.current`
before awaiting the request, then dispatch on the request outcome; a
timeout or network-style failure schedules `callBackendAPI(text,
retryCount + 1)` (run here immediately — it is the only pending task)
while `retryCount < MAX_RETRIES`, and otherwise surfaces an error and
delivers the local fallback. `fuel` bounds the retry recursion
(`callBackendAPI` supplies `MAX_RETRIES + 1`, enough for every chain
since `retryCount` grows by 1 per re-invocation). -/
def callBackendAPIGo (env : ℕ → ReqOutcome) (text : String) :
    ℕ → ℕ → OrchState → OrchState
  | 0, _, st => st
  | fuel + 1, rc, st =>
      if text = "" ∨ jsTrim text = "" then st
      else if text = st.lastTranscript then st
      else
        let st1 : OrchState :=
          { st with
            lastTranscript := text
            reqCount := st.reqCount + 1
            requests := st.requests ++ [text] }
        match env st.reqCount with
        | .okResult data =>
            { st1 with delivered := st1.delivered ++ [.analysis data] }
        | .okWeird data =>
            { st1 with delivered := st1.delivered ++ [.raw data] }
        | .httpError resp =>
            { st1 with
              errors := st1.errors ++ [.backend resp]
              delivered :=
                st1.delivered ++ [.fallback (provideFallbackAnalysis text)] }
        | .abortTimeout =>
            if rc < MAX_RETRIES then callBackendAPIGo env text fuel (rc + 1) st1
            else
              { st1 with
                errors := st1.errors ++ [.timeout]
                delivered :=
                  st1.delivered ++ [.fallback (provideFallbackAnalysis text)] }
        | .okFailure _ =>
            if rc < MAX_RETRIES then callBackendAPIGo env text fuel (rc + 1) st1
            else
              { st1 with
                errors := st1.errors ++ [.network]
                delivered :=
                  st1.delivered ++ [.fallback (provideFallbackAnalysis text)] }
        | .netError =>
            if rc < MAX_RETRIES then callBackendAPIGo env text fuel (rc + 1) st1
            else
              { st1 with
                errors := st1.errors ++ [.network]
                delivered :=
                  st1.delivered ++ [.fallback (provideFallbackAnalysis text)] }

/-- `callBackendAPI(text, retryCount)` of `useAudioAnalyzer.js`. -/
def callBackendAPI (env : ℕ → ReqOutcome) (text : String) (rc : ℕ)
    (st : OrchState) : OrchState :=
  callBackendAPIGo env text (MAX_RETRIES + 1) rc st

/-- A fresh session state: `lastTranscriptRef.current` starts as the
empty string, nothing logged. -/
def initState : OrchState :=
  { lastTranscript := ""
    reqCount := 0
    requests := []
    delivered := []
    errors := [] }

/-- One tick of the easing effect in `App.jsx`:
`next = prev + (sentiment - prev) * 0.08`, snapping exactly to the
target when `|next - sentiment| < 0.0005`. -/
def easeStep (target prev : ℚ) : ℚ :=
  let next := qadd prev (qmul (qsub target prev) (mkRat 8 100))
  if |qsub next target| < mkRat 5 10000 then target else next

/-- Environment for the C5 counterexample: the first attempt fails with
HTTP 400. -/
def c5Env : ℕ → AttemptOutcome := fun _ => .fail (some 400) "Bad Request"

/-- Environment for the C5 witness: the first attempt fails with
HTTP 404. -/
def c5WitnessEnv : ℕ → AttemptOutcome := fun _ => .fail (some 404) "Not Found"

/-- The 250-character string used to exhibit the missing summary
truncation. -/
def longA : String := String.mk (List.replicate 250 'a')

/-- The malformed model text of the repair scenario: single quotes,
unquoted key, trailing comma. -/
def c6raw : String := "Sure! \x7bsentiment: 0.2, \x27tone\x27:\x27sad\x27,\x7d"

/-- Environment for the C7 witness: every request succeeds. -/
def c7Env : ℕ → ReqOutcome :=
  fun _ => ReqOutcome.okResult (.obj [("sentiment", .num (mkRat 9 10))])

/-- Environment for the C10 witness: every request times out. -/
def c10Env : ℕ → ReqOutcome := fun _ => ReqOutcome.abortTimeout

/-- Environment for the C1 failing input: every request times out. -/
def c1Env : ℕ → ReqOutcome := fun _ => ReqOutcome.abortTimeout

theorem qadd_eq (a b : ℚ) : qadd a b = a + b := by
  have ha : (a.den : ℚ) ≠ 0 := by exact_mod_cast a.den_nz
  have hb : (b.den : ℚ) ≠ 0 := by exact_mod_cast b.den_nz
  rw [qadd, Rat.divInt_eq_div]
  push_cast
  conv_rhs => rw [← Rat.num_div_den a, ← Rat.num_div_den b, div_add_div _ _ ha hb]
  ring_nf

theorem qmul_eq (a b : ℚ) : qmul a b = a * b := by
  rw [qmul, Rat.divInt_eq_div]
  push_cast
  conv_rhs => rw [← Rat.num_div_den a, ← Rat.num_div_den b, div_mul_div_comm]

theorem qsub_eq (a b : ℚ) : qsub a b = a - b := by
  have ha : (a.den : ℚ) ≠ 0 := by exact_mod_cast a.den_nz
  have hb : (b.den : ℚ) ≠ 0 := by exact_mod_cast b.den_nz
  rw [qsub, Rat.divInt_eq_div]
  push_cast
  conv_rhs => rw [← Rat.num_div_den a, ← Rat.num_div_den b, div_sub_div _ _ ha hb]
  ring_nf

theorem qdiv_eq (a b : ℚ) : qdiv a b = a / b := by
  rcases eq_or_ne b 0 with rb | rb
  · subst rb
    simp [qdiv, Rat.divInt_eq_div]
  · rw [qdiv, Rat.divInt_eq_div]
    push_cast
    conv_rhs =>
      rw [← Rat.num_div_den a, ← Rat.num_div_den b, div_div_eq_mul_div]
    ring_nf

/-- One-step unfolding of `geminiLoop` with positive fuel, for rewriting
under binders. -/
theorem geminiLoop_succ (env : ℕ → AttemptOutcome) (retries fuel attempt : ℕ)
    (delays : List ℕ) (lastErr : Option (Option ℕ × String)) :
    geminiLoop env retries (fuel + 1) attempt delays lastErr =
      match env attempt with
      | .ok data =>
          { result := .ok data, attemptsMade := attempt + 1, delays := delays }
      | .fail st msg =>
          let le := some (st, msg)
          if isTerminalStatus st then
            geminiThrow le retries (attempt + 1) delays
          else if attempt < retries then
            geminiLoop env retries fuel (attempt + 1)
              (delays ++ [min (1000 * 2 ^ attempt) 5000]) le
          else geminiThrow le retries (attempt + 1) delays := rfl

/-- One-step unfolding of `callBackendAPIGo` with positive fuel. -/
theorem callBackendAPIGo_succ (env : ℕ → ReqOutcome) (text : String)
    (fuel rc : ℕ) (st : OrchState) :
    callBackendAPIGo env text (fuel + 1) rc st =
      if text = "" ∨ jsTrim text = "" then st
      else if text = st.lastTranscript then st
      else
        let st1 : OrchState :=
          { st with
            lastTranscript := text
            reqCount := st.reqCount + 1
            requests := st.requests ++ [text] }
        match env st.reqCount with
        | .okResult data =>
            { st1 with delivered := st1.delivered ++ [.analysis data] }
        | .okWeird data =>
            { st1 with delivered := st1.delivered ++ [.raw data] }
        | .httpError resp =>
            { st1 with
              errors := st1.errors ++ [.backend resp]
              delivered :=
                st1.delivered ++ [.fallback (provideFallbackAnalysis text)] }
        | .abortTimeout =>
            if rc < MAX_RETRIES then callBackendAPIGo env text fuel (rc + 1) st1
            else
              { st1 with
                errors := st1.errors ++ [.timeout]
                delivered :=
                  st1.delivered ++ [.fallback (provideFallbackAnalysis text)] }
        | .okFailure _ =>
            if rc < MAX_RETRIES then callBackendAPIGo env text fuel (rc + 1) st1
            else
              { st1 with
                errors := st1.errors ++ [.network]
                delivered :=
                  st1.delivered ++ [.fallback (provideFallbackAnalysis text)] }
        | .netError =>
            if rc < MAX_RETRIES then callBackendAPIGo env text fuel (rc + 1) st1
            else
              { st1 with
                errors := st1.errors ++ [.network]
                delivered :=
                  st1.delivered ++ [.fallback (provideFallbackAnalysis text)] } :=
  rfl

theorem normalizeSentiment_notNum (v l : JSVal) (hv : v.isNum = false) :
    normalizeSentiment v l =
      if truthy l then
        (mapLookup SENTIMENT_MAP (toLowerStr (jsToString l))).getD (mkRat 1 2)
      else mkRat 1 2 := by
  cases v <;> simp_all [JSVal.isNum, normalizeSentiment]

/-- C8: `normalizeSentiment(value, label)`: a numeric value in (1, 100]
is divided by 100 and clamped to [0, 1] (so 85 maps to 0.85, 0.85 maps
to 0.85, and 150 clamps to 1 because the percentage heuristic does not
apply); a non-numeric value with a present (truthy) label maps through
the case-insensitive table positive 0.8 / neutral 0.5 / negative 0.2
with default 0.5; otherwise the result is 0.5. -/
theorem c8_normalizeSentiment_spec :
    (∀ q : ℚ, ∀ l : JSVal, 1 < q → q ≤ 100 →
        normalizeSentiment (.num q) l = max 0 (min 1 (q / 100)))
    ∧ normalizeSentiment (.num 85) .null = 85/100
    ∧ normalizeSentiment (.num (mkRat 85 100)) .null = 85/100
    ∧ normalizeSentiment (.num 150) .null = 1
    ∧ (∀ v : JSVal, v.isNum = false →
        normalizeSentiment v (.str "POSITIVE") = 8/10 ∧
        normalizeSentiment v (.str "positive") = 8/10 ∧
        normalizeSentiment v (.str "Neutral") = 5/10 ∧
        normalizeSentiment v (.str "NEGATIVE") = 2/10 ∧
        normalizeSentiment v (.str "negative") = 2/10 ∧
        normalizeSentiment v (.str "unrecognized") = 5/10)
    ∧ (∀ v l : JSVal, v.isNum = false → truthy l = false →
        normalizeSentiment v l = 5/10) := by
  refine ⟨?_, ?_, ?_, ?_, ?_, ?_⟩
  · intro q l h1 h2
    simp only [normalizeSentiment]
    rw [if_pos ⟨h1, h2⟩, qdiv_eq]
  · have h := (by decide : normalizeSentiment (.num 85) .null = mkRat 85 100)
    rw [h, Rat.mkRat_eq_div]
    norm_num
  · have h :=
      (by decide :
        normalizeSentiment (.num (mkRat 85 100)) .null = mkRat 85 100)
    rw [h, Rat.mkRat_eq_div]
    norm_num
  · decide
  · intro v hv
    rw [normalizeSentiment_notNum v _ hv, normalizeSentiment_notNum v _ hv,
      normalizeSentiment_notNum v _ hv, normalizeSentiment_notNum v _ hv,
      normalizeSentiment_notNum v _ hv, normalizeSentiment_notNum v _ hv]
    refine ⟨?_, ?_, ?_, ?_, ?_, ?_⟩
    · rw [show (8:ℚ)/10 = mkRat 8 10 by rw [Rat.mkRat_eq_div]; norm_num]
      decide
    · rw [show (8:ℚ)/10 = mkRat 8 10 by rw [Rat.mkRat_eq_div]; norm_num]
      decide
    · rw [show (5:ℚ)/10 = mkRat 5 10 by rw [Rat.mkRat_eq_div]; norm_num]
      decide
    · rw [show (2:ℚ)/10 = mkRat 2 10 by rw [Rat.mkRat_eq_div]; norm_num]
      decide
    · rw [show (2:ℚ)/10 = mkRat 2 10 by rw [Rat.mkRat_eq_div]; norm_num]
      decide
    · rw [show (5:ℚ)/10 = mkRat 5 10 by rw [Rat.mkRat_eq_div]; norm_num]
      decide
  · intro v l hv hl
    rw [normalizeSentiment_notNum v l hv, hl, if_neg (by simp),
      Rat.mkRat_eq_div]
    norm_num

/-- Witness for C8 at concrete inputs. -/
theorem c8_normalizeSentiment_spec_witness :
    normalizeSentiment (.num 42) .null = max 0 (min 1 (42/100))
    ∧ normalizeSentiment (.str "x") (.str "POSITIVE") = 8/10
    ∧ normalizeSentiment (.str "x") .null = 5/10 :=
  ⟨c8_normalizeSentiment_spec.1 42 .null (by norm_num) (by norm_num),
    (c8_normalizeSentiment_spec.2.2.2.2.1 (.str "x") rfl).1,
    c8_normalizeSentiment_spec.2.2.2.2.2 (.str "x") .null rfl rfl⟩

theorem easeStep_self (t : ℚ) : easeStep t t = t := by
  simp [easeStep, qadd_eq, qsub_eq, qmul_eq]

theorem easeStep_snap (t c : ℚ) (h : |t - c| < 5/10000) : easeStep t c = t := by
  have key : qsub (qadd c (qmul (qsub t c) (mkRat 8 100))) t =
      -((t - c) * (23/25)) := by
    rw [qsub_eq, qadd_eq, qmul_eq, qsub_eq, Rat.mkRat_eq_div]
    ring
  rw [easeStep, key, abs_neg, abs_mul]
  rw [if_pos]
  calc |t - c| * |(23:ℚ)/25| ≤ |t - c| * 1 := by
        apply mul_le_mul_of_nonneg_left _ (abs_nonneg _)
        rw [abs_of_pos] <;> norm_num
    _ = |t - c| := mul_one _
    _ < 5/10000 := h
    _ = mkRat 5 10000 := by rw [Rat.mkRat_eq_div]; norm_num

theorem easeStep_dist (t c : ℚ) :
    easeStep t c = t ∨ |t - easeStep t c| = (23/25) * |t - c| := by
  rw [easeStep]
  split
  · exact Or.inl rfl
  · right
    have key : t - qadd c (qmul (qsub t c) (mkRat 8 100)) = (t - c) * (23/25) := by
      rw [qadd_eq, qmul_eq, qsub_eq, Rat.mkRat_eq_div]
      ring
    rw [key, abs_mul, abs_of_pos (show (0:ℚ) < 23/25 by norm_num), mul_comm]

theorem easeStep_iter_bound (t c : ℚ) (n : ℕ) :
    (easeStep t)^[n] c = t ∨
      |t - (easeStep t)^[n] c| ≤ (23/25)^n * |t - c| := by
  induction n with
  | zero => right; simp
  | succ n ih =>
      rcases ih with h | h
      · left
        rw [Function.iterate_succ_apply', h, easeStep_self]
      · rcases easeStep_dist t ((easeStep t)^[n] c) with h2 | h2
        · left
          rw [Function.iterate_succ_apply', h2]
        · right
          rw [Function.iterate_succ_apply', h2]
          calc (23:ℚ)/25 * |t - (easeStep t)^[n] c| ≤
                (23/25) * ((23/25)^n * |t - c|) := by
                  apply mul_le_mul_of_nonneg_left h (by norm_num)
            _ = (23/25)^(n + 1) * |t - c| := by ring

theorem easeStep_converges (t c : ℚ) : ∃ n : ℕ, (easeStep t)^[n] c = t := by
  have hpos : (0:ℚ) < 5/10000 / (1 + |t - c|) := by positivity
  obtain ⟨N, hN⟩ :=
    exists_pow_lt_of_lt_one hpos (show (23:ℚ)/25 < 1 by norm_num)
  have hbound : (23/25:ℚ)^N * |t - c| < 5/10000 := by
    calc (23/25:ℚ)^N * |t - c| ≤ (23/25)^N * (1 + |t - c|) := by
          apply mul_le_mul_of_nonneg_left _ (by positivity)
          linarith [abs_nonneg (t - c)]
      _ < 5/10000 / (1 + |t - c|) * (1 + |t - c|) := by
          apply mul_lt_mul_of_pos_right hN (by positivity)
      _ = 5/10000 := div_mul_cancel₀ _ (by positivity)
  rcases easeStep_iter_bound t c N with h | h
  · exact ⟨N, h⟩
  · refine ⟨N + 1, ?_⟩
    rw [Function.iterate_succ_apply']
    exact easeStep_snap t _ (lt_of_le_of_lt h hbound)

/-- C9: each tick of the visual-sentiment effect in `App.jsx` moves the
displayed value by `current + (target - current) * EASING` with the
easing constant 0.08 inside the 0.08 to 0.14 range, snaps exactly to
the target once the remaining distance after the step falls below the
0.0005 epsilon, and therefore reaches the target exactly in finitely
many ticks. -/
theorem c9_easing_spec :
    ((8:ℚ)/100 ≤ mkRat 8 100 ∧ mkRat 8 100 ≤ (14:ℚ)/100)
    ∧ (∀ t c : ℚ, ¬ |c + (t - c) * mkRat 8 100 - t| < 5/10000 →
        easeStep t c = c + (t - c) * mkRat 8 100)
    ∧ (∀ t c : ℚ, |c + (t - c) * mkRat 8 100 - t| < 5/10000 →
        easeStep t c = t)
    ∧ (∀ t c : ℚ, ∃ n : ℕ, (easeStep t)^[n] c = t) := by
  have hnote : ∀ t c : ℚ,
      qsub (qadd c (qmul (qsub t c) (mkRat 8 100))) t =
        c + (t - c) * mkRat 8 100 - t := by
    intro t c
    rw [qsub_eq, qadd_eq, qmul_eq, qsub_eq]
  have heps : mkRat 5 10000 = (5:ℚ)/10000 := by
    rw [Rat.mkRat_eq_div]
    norm_num
  refine ⟨⟨?_, ?_⟩, ?_, ?_, easeStep_converges⟩
  · rw [Rat.mkRat_eq_div]
    norm_num
  · rw [Rat.mkRat_eq_div]
    norm_num
  · intro t c h
    rw [easeStep, hnote, heps, if_neg h, qadd_eq, qmul_eq, qsub_eq]
  · intro t c h
    rw [easeStep, hnote, heps, if_pos h]

/-- Witness for C9 at target 1, start 0. -/
theorem c9_easing_spec_witness :
    easeStep 1 0 = 0 + (1 - 0) * mkRat 8 100
    ∧ (∃ n : ℕ, (easeStep 1)^[n] (0:ℚ) = 1) := by
  constructor
  · apply c9_easing_spec.2.1 1 0
    have : (0:ℚ) + (1 - 0) * mkRat 8 100 - 1 = -(92/100) := by
      rw [Rat.mkRat_eq_div]
      norm_num
    rw [this, abs_neg, abs_of_pos (by norm_num)]
    norm_num
  · exact c9_easing_spec.2.2.2 1 0

/-- C5 counterexample: with `retries = 2` and a 400 on the first
attempt, exactly one attempt is made with no backoff, but the thrown
error reports `attempts: 3` (`retries + 1`), not the actual count 1
that the claim asserts. -/
theorem c5_counterexample :
    callGeminiAPI c5Env 2 =
      { result := .error
          { status := 400
            message := "Gemini API call failed: Bad Request"
            attempts := 3 }
        attemptsMade := 1
        delays := [] }
    ∧ (3 : ℕ) ≠ 1 := ⟨rfl, by decide⟩

/-- C5 as amended: a first-attempt failure with status in [400, 500) is
terminal — exactly one attempt, no backoff delay — and the thrown
`ClassifierError` carries the last status and message, but its
`attempts` field is the configured maximum `retries + 1`, not the
number of attempts actually made. -/
theorem c5_terminal_no_retry (env : ℕ → AttemptOutcome) (retries st : ℕ)
    (msg : String) (h0 : env 0 = .fail (some st) msg) (h4 : 400 ≤ st)
    (h5 : st < 500) (hm : msg ≠ "") :
    callGeminiAPI env retries =
      { result := .error
          { status := st
            message := "Gemini API call failed: " ++ msg
            attempts := retries + 1 }
        attemptsMade := 1
        delays := [] } := by
  have hterm : isTerminalStatus (some st) = true := by
    simp only [isTerminalStatus, Bool.and_eq_true, decide_eq_true_eq]
    omega
  have hst : st ≠ 0 := by omega
  rw [callGeminiAPI, geminiLoop_succ, h0]
  simp only [hterm, if_true]
  simp [geminiThrow, geminiStatusOf, geminiMessageOf, hst, hm]

/-- Witness for C5 as amended, at a 404 first-attempt failure. -/
theorem c5_terminal_no_retry_witness :
    callGeminiAPI c5WitnessEnv 2 =
      { result := .error
          { status := 404
            message := "Gemini API call failed: Not Found"
            attempts := 3 }
        attemptsMade := 1
        delays := [] } :=
  c5_terminal_no_retry c5WitnessEnv 2 404 "Not Found" rfl (by norm_num)
    (by norm_num) (by decide)

theorem dedupFirstGo_not_mem_seen (l : List String) :
    ∀ seen : List String, ∀ x ∈ dedupFirstGo seen l, x ∉ seen := by
  induction l with
  | nil => intro seen x hx; simp [dedupFirstGo] at hx
  | cons a as ih =>
      intro seen x hx
      rw [dedupFirstGo] at hx
      by_cases ha : a ∈ seen
      · rw [if_pos ha] at hx
        exact ih seen x hx
      · rw [if_neg ha] at hx
        rcases List.mem_cons.mp hx with rfl | hx2
        · exact ha
        · intro hs
          exact ih (a :: seen) x hx2 (List.mem_cons_of_mem a hs)

theorem dedupFirstGo_nodup (l : List String) :
    ∀ seen : List String, (dedupFirstGo seen l).Nodup := by
  induction l with
  | nil => intro seen; simp [dedupFirstGo]
  | cons a as ih =>
      intro seen
      rw [dedupFirstGo]
      by_cases ha : a ∈ seen
      · rw [if_pos ha]
        exact ih seen
      · rw [if_neg ha]
        refine List.Nodup.cons ?_ (ih (a :: seen))
        intro hmem
        exact dedupFirstGo_not_mem_seen as (a :: seen) a hmem
          (List.mem_cons_self a seen)

theorem dedupFirstGo_sublist (l : List String) :
    ∀ seen : List String, (dedupFirstGo seen l).Sublist l := by
  induction l with
  | nil => intro seen; simp [dedupFirstGo]
  | cons a as ih =>
      intro seen
      rw [dedupFirstGo]
      by_cases ha : a ∈ seen
      · rw [if_pos ha]
        exact (ih seen).cons a
      · rw [if_neg ha]
        exact (ih (a :: seen)).cons₂ a

theorem dedupFirst_nodup (l : List String) : (dedupFirst l).Nodup :=
  dedupFirstGo_nodup l []

theorem dedupFirst_sublist (l : List String) : (dedupFirst l).Sublist l :=
  dedupFirstGo_sublist l []

theorem sentimentMap_getD_mem (k : String) :
    0 ≤ (mapLookup SENTIMENT_MAP k).getD (mkRat 1 2) ∧
      (mapLookup SENTIMENT_MAP k).getD (mkRat 1 2) ≤ 1 := by
  simp only [SENTIMENT_MAP, mapLookup]
  split_ifs <;> refine ⟨?_, ?_⟩ <;> simp <;> rw [Rat.mkRat_eq_div] <;> norm_num

theorem normalizeSentiment_mem_notNum (value label : JSVal)
    (h : value.isNum = false) :
    0 ≤ normalizeSentiment value label ∧ normalizeSentiment value label ≤ 1 := by
  rw [normalizeSentiment_notNum value label h]
  split
  · exact sentimentMap_getD_mem _
  · rw [Rat.mkRat_eq_div]
    norm_num

theorem normalizeSentiment_mem (value label : JSVal) :
    0 ≤ normalizeSentiment value label ∧ normalizeSentiment value label ≤ 1 := by
  cases value with
  | num q => exact ⟨le_max_left 0 _, max_le (by norm_num) (min_le_left 1 _)⟩
  | null => exact normalizeSentiment_mem_notNum .null label rfl
  | undefined => exact normalizeSentiment_mem_notNum .undefined label rfl
  | str s => exact normalizeSentiment_mem_notNum (.str s) label rfl
  | bool b => exact normalizeSentiment_mem_notNum (.bool b) label rfl
  | arr xs => exact normalizeSentiment_mem_notNum (.arr xs) label rfl
  | obj fs => exact normalizeSentiment_mem_notNum (.obj fs) label rfl

theorem buildSentiment_mem (parsed : JSVal) :
    0 ≤ buildSentiment parsed ∧ buildSentiment parsed ≤ 1 :=
  normalizeSentiment_mem _ _

theorem deriveConfidence_mem (s : ℚ) :
    1/2 ≤ deriveConfidence s ∧ deriveConfidence s ≤ 99/100 := by
  unfold deriveConfidence
  constructor
  · rw [show (1:ℚ)/2 = mkRat 1 2 by rw [Rat.mkRat_eq_div]; norm_num]
    exact le_max_left _ _
  · apply max_le
    · rw [Rat.mkRat_eq_div]
      norm_num
    · calc min (mkRat 99 100) _ ≤ mkRat 99 100 := min_le_left _ _
        _ = 99/100 := by rw [Rat.mkRat_eq_div]; norm_num

theorem round3_eq (q : ℚ) : round3 q = (⌊q * 1000 + 1/2⌋ : ℚ) / 1000 := by
  rw [round3, Rat.divInt_eq_div, qadd_eq, qmul_eq, Rat.mkRat_eq_div]
  norm_num

theorem round3_bounds (x : ℚ) (h1 : 1/2 ≤ x) (h2 : x ≤ 99/100) :
    1/2 ≤ round3 x ∧ round3 x ≤ 99/100 := by
  rw [round3_eq]
  have hlo : (500 : ℤ) ≤ ⌊x * 1000 + 1/2⌋ := by
    rw [Int.le_floor]
    push_cast
    linarith
  have hhi : ⌊x * 1000 + 1/2⌋ ≤ (990 : ℤ) := by
    rw [show (990:ℤ) = 991 - 1 by norm_num, Int.le_sub_one_iff, Int.floor_lt]
    push_cast
    linarith
  constructor
  · rw [le_div_iff₀ (by norm_num : (0:ℚ) < 1000)]
    calc (1:ℚ)/2 * 1000 = 500 := by norm_num
      _ ≤ (⌊x * 1000 + 1/2⌋ : ℚ) := by exact_mod_cast hlo
  · rw [div_le_iff₀ (by norm_num : (0:ℚ) < 1000)]
    calc (⌊x * 1000 + 1/2⌋ : ℚ) ≤ 990 := by exact_mod_cast hhi
      _ = 99/100 * 1000 := by norm_num

theorem build_ok_elim (parsed : JSVal) (raw orig : String) (r : BuiltData)
    (h : buildAnalysisResponse parsed raw orig = .ok r) :
    ∃ conf : ℚ,
      confidenceResult (jsGet parsed "confidence") (buildSentiment parsed) =
        .ok conf ∧ r = buildCore parsed raw orig conf := by
  unfold buildAnalysisResponse at h
  cases hc : confidenceResult (jsGet parsed "confidence") (buildSentiment parsed) with
  | error e => rw [hc] at h; cases h
  | ok conf =>
      rw [hc] at h
      refine ⟨conf, rfl, ?_⟩
      cases h
      rfl

theorem buildCore_fields (parsed : JSVal) (raw orig : String) (conf : ℚ) :
    (buildCore parsed raw orig conf).sentiment = buildSentiment parsed ∧
    (buildCore parsed raw orig conf).confidence = round3 conf ∧
    (buildCore parsed raw orig conf).keywords =
      (dedupFirst
        (keywordPool parsed (deriveSummary parsed raw orig) raw orig)).take 7 ∧
    (buildCore parsed raw orig conf).sentiment_label =
      (if truthy (jsGet parsed "sentiment_label") then
        jsToString (jsGet parsed "sentiment_label")
      else deriveSentimentLabel (buildSentiment parsed)) ∧
    (buildCore parsed raw orig conf).short_summary =
      deriveSummary parsed raw orig :=
  ⟨rfl, rfl, rfl, rfl, rfl⟩

/-- C2 counterexample: a parsed payload with numeric confidence 2 makes
`buildAnalysisResponse` return confidence 2, outside [0, 1] — the
builder does not validate the upstream confidence as the claim
asserts. -/
theorem c2_counterexample :
    buildAnalysisResponse (.obj [("confidence", .num 2)]) "raw" "orig" =
      .ok
        { model := MODEL_NAME
          sentiment := mkRat 1 2
          sentiment_label := "neutral"
          confidence := 2
          keywords := ["raw"]
          tone := .str "neutral"
          short_summary := "raw" }
    ∧ ¬ ((2:ℚ) ≤ 1) :=
  ⟨rfl, by norm_num⟩

/-- C2 as amended: whenever the builder returns, the sentiment is in
[0, 1] and at most 7 keywords are produced; a nullish parsed confidence
falls back to the derived confidence, which lies in [0.5, 0.99] after
rounding; but a numeric parsed confidence is used unvalidated (only
rounded to 3 decimals), even outside [0, 1] — and the builder never
throws for a null parse, where every field is derived. -/
theorem c2_builder_totality :
    (∀ parsed : JSVal, ∀ raw orig : String, ∀ r : BuiltData,
        buildAnalysisResponse parsed raw orig = .ok r →
          (0 ≤ r.sentiment ∧ r.sentiment ≤ 1) ∧
          r.keywords.length ≤ 7 ∧
          (isNullish (jsGet parsed "confidence") = true →
            1/2 ≤ r.confidence ∧ r.confidence ≤ 99/100) ∧
          (∀ q : ℚ, jsGet parsed "confidence" = .num q →
            r.confidence = round3 q))
    ∧ (∀ raw orig : String, ∃ r : BuiltData,
        buildAnalysisResponse .null raw orig = .ok r) := by
  constructor
  · intro parsed raw orig r h
    obtain ⟨conf, hc, rfl⟩ := build_ok_elim parsed raw orig r h
    refine ⟨buildSentiment_mem parsed, ?_, ?_, ?_⟩
    · show ((dedupFirst (keywordPool parsed
          (deriveSummary parsed raw orig) raw orig)).take 7).length ≤ 7
      exact List.length_take_le 7 _
    · intro hnull
      have hconf : conf = deriveConfidence (buildSentiment parsed) := by
        cases hcv : jsGet parsed "confidence" <;> rw [hcv] at hc hnull <;>
          simp_all [confidenceResult, isNullish]
      rw [(buildCore_fields parsed raw orig conf).2.1, hconf]
      exact round3_bounds _ (deriveConfidence_mem _).1 (deriveConfidence_mem _).2
    · intro q hq
      rw [hq] at hc
      simp [confidenceResult] at hc
      simp [buildCore, hc]
  · intro raw orig
    exact ⟨buildCore .null raw orig
      (deriveConfidence (buildSentiment .null)), rfl⟩

/-- Witness for C2 as amended, at a null parse of the input `"hi"`. -/
theorem c2_builder_totality_witness :
    (0 ≤ (mkRat 1 2 : ℚ) ∧ (mkRat 1 2 : ℚ) ≤ 1) ∧
    ([] : List String).length ≤ 7 ∧
    (1/2 ≤ (mkRat 1 2 : ℚ) ∧ (mkRat 1 2 : ℚ) ≤ 99/100) := by
  have h := c2_builder_totality.1 .null "hi" "hi" _ rfl
  exact ⟨h.1, h.2.1, h.2.2.1 rfl⟩

/-- C3 counterexample: a parsed payload with `sentiment_label`
`"awesome"` and a 250-character `short_summary` flows verbatim into the
built record — the label is outside the declared enum and the summary
exceeds 220 characters. -/
theorem c3_counterexample :
    buildAnalysisResponse
        (.obj [("sentiment_label", .str "awesome"),
               ("short_summary", .str longA)]) "" "x" =
      .ok
        { model := MODEL_NAME
          sentiment := mkRat 1 2
          sentiment_label := "awesome"
          confidence := mkRat 1 2
          keywords := [longA]
          tone := .str "neutral"
          short_summary := longA }
    ∧ longA.length = 250
    ∧ ¬ ((250 : ℕ) ≤ 220)
    ∧ "awesome" ∉ (["negative", "neutral", "positive"] : List String) :=
  ⟨rfl, by decide, by decide, by decide⟩

theorem length_take_220 (l : List Char) : (String.mk (l.take 220)).length ≤ 220 := by
  show (l.take 220).length ≤ 220
  exact List.length_take_le 220 l

/-- C3 as amended: the enum bound on `sentimentLabel` and the
220-character bound on `shortSummary` hold whenever those fields are
locally derived (falsy in the parsed payload); a truthy parsed
`sentiment_label` is stringified without enum validation and a truthy
parsed `short_summary` is used verbatim without truncation, so
upstream-originated values can violate both bounds. -/
theorem c3_shape_when_derived (parsed : JSVal) (raw orig : String)
    (r : BuiltData)
    (hl : truthy (jsGet parsed "sentiment_label") = false)
    (hs : truthy (jsGet parsed "short_summary") = false)
    (h : buildAnalysisResponse parsed raw orig = .ok r) :
    r.sentiment_label ∈ (["negative", "neutral", "positive"] : List String) ∧
      r.short_summary.length ≤ 220 := by
  obtain ⟨conf, hc, rfl⟩ := build_ok_elim parsed raw orig r h
  constructor
  · rw [(buildCore_fields parsed raw orig conf).2.2.2.1, hl]
    simp only [Bool.false_eq_true, if_false, deriveSentimentLabel]
    split_ifs <;> simp
  · rw [(buildCore_fields parsed raw orig conf).2.2.2.2, deriveSummary, hs]
    simp only [Bool.false_eq_true, if_false]
    split <;> split <;> exact length_take_220 _

/-- Witness for C3 as amended, at a null parse of the input `"hi"`. -/
theorem c3_shape_when_derived_witness :
    "neutral" ∈ (["negative", "neutral", "positive"] : List String) ∧
      ("hi" : String).length ≤ 220 :=
  c3_shape_when_derived .null "hi" "hi" _ rfl rfl rfl

/-- C4 counterexample: parsed keywords `["Cat", "cat", "Cat"]` survive
de-duplication as `["Cat", "cat"]` — two entries equal ignoring case —
because the builder de-duplicates by exact string equality, not
case-insensitively. -/
theorem c4_counterexample :
    buildAnalysisResponse
        (.obj [("keywords", .arr [.str "Cat", .str "cat", .str "Cat"])])
        "r" "o" =
      .ok
        { model := MODEL_NAME
          sentiment := mkRat 1 2
          sentiment_label := "neutral"
          confidence := mkRat 1 2
          keywords := ["Cat", "cat"]
          tone := .str "neutral"
          short_summary := "r" }
    ∧ toLowerStr "Cat" = toLowerStr "cat" :=
  ⟨rfl, rfl⟩

/-- C4 as amended: the built keyword list is the exact-equality
(case-sensitive) de-duplication of the pre-dedup keyword pool, keeping
first occurrences in insertion order, capped at 7: it has no two equal
entries, at most 7 entries, and is an order-preserving sublist of the
pool. Case-insensitive de-duplication does not hold for
parsed-supplied keywords. -/
theorem c4_keywords_dedup (parsed : JSVal) (raw orig : String)
    (r : BuiltData) (h : buildAnalysisResponse parsed raw orig = .ok r) :
    r.keywords =
      (dedupFirst
        (keywordPool parsed (deriveSummary parsed raw orig) raw orig)).take 7 ∧
    r.keywords.Nodup ∧ r.keywords.length ≤ 7 ∧
    r.keywords.Sublist
      (keywordPool parsed (deriveSummary parsed raw orig) raw orig) := by
  obtain ⟨conf, hc, rfl⟩ := build_ok_elim parsed raw orig r h
  have hkw := (buildCore_fields parsed raw orig conf).2.2.1
  refine ⟨hkw, ?_, ?_, ?_⟩
  · rw [hkw]
    exact (dedupFirst_nodup _).sublist (List.take_sublist 7 _)
  · rw [hkw]
    exact List.length_take_le 7 _
  · rw [hkw]
    exact (List.take_sublist 7 _).trans (dedupFirst_sublist _)

/-- Witness for C4 as amended, at parsed keywords
`["Dog", "dog", "Dog"]`. -/
theorem c4_keywords_dedup_witness :
    (["Dog", "dog"] : List String).Nodup ∧
      (["Dog", "dog"] : List String).length ≤ 7 := by
  have h := c4_keywords_dedup
    (.obj [("keywords", .arr [.str "Dog", .str "dog", .str "Dog"])])
    "r" "o" _ rfl
  exact ⟨h.2.1, h.2.2.1⟩

/-- C6 counterexample: the repair pass does not make this text parse —
the unquoted key `sentiment` survives the comma/quote repairs and
`JSON.parse` rejects both the raw and the repaired span, so
`parseJsonFromText` returns null rather than an object with sentiment
0.2 and tone "sad". -/
theorem c6_counterexample : parseJsonFromText c6raw = none := rfl

/-- C6 as amended: on this input the parser returns null (the repair
only strips trailing commas and swaps quote characters, which cannot
fix the unquoted key), and the builder therefore derives every field
from scratch: sentiment 0.5 and sentiment label "neutral" — while
`deriveSentimentLabel 0.2 = "negative"` does hold as a fact about the
normalizer, it is not exercised by this input. -/
theorem c6_repair_fails_and_builder_defaults :
    parseJsonFromText c6raw = none
    ∧ buildAnalysisResponse .null c6raw "I feel sad" =
      .ok
        { model := MODEL_NAME
          sentiment := mkRat 1 2
          sentiment_label := "neutral"
          confidence := mkRat 1 2
          keywords := ["sure sentiment", "sentiment 0", "tone sad", "sure",
            "sentiment", "tone"]
          tone := .str "neutral"
          short_summary := c6raw }
    ∧ deriveSentimentLabel (mkRat 2 10) = "negative" :=
  ⟨rfl, rfl, by decide⟩

theorem jsTrim_guard_ne (t : String) (ht : jsTrim t ≠ "") :
    ¬ (t = "" ∨ jsTrim t = "") := by
  rintro (rfl | h)
  · exact ht rfl
  · exact ht h

theorem callBackendAPIGo_noop_empty (env : ℕ → ReqOutcome) (t : String)
    (fuel rc : ℕ) (st : OrchState) (h : t = "" ∨ jsTrim t = "") :
    callBackendAPIGo env t fuel rc st = st := by
  cases fuel with
  | zero => rfl
  | succ f => rw [callBackendAPIGo_succ, if_pos h]

theorem callBackendAPIGo_noop_dup (env : ℕ → ReqOutcome) (t : String)
    (fuel rc : ℕ) (st : OrchState) (ht : jsTrim t ≠ "")
    (h : t = st.lastTranscript) :
    callBackendAPIGo env t fuel rc st = st := by
  cases fuel with
  | zero => rfl
  | succ f => rw [callBackendAPIGo_succ, if_neg (jsTrim_guard_ne t ht), if_pos h]

theorem callBackendAPI_failure_eq (env : ℕ → ReqOutcome) (t : String)
    (st : OrchState) (ht : jsTrim t ≠ "") (hd : st.lastTranscript ≠ t)
    (hout : env st.reqCount = .abortTimeout ∨ env st.reqCount = .netError ∨
      ∃ m, env st.reqCount = .okFailure m) :
    callBackendAPI env t 0 st =
      ⟨t, st.reqCount + 1, st.requests ++ [t], st.delivered, st.errors⟩ := by
  have hnoop := callBackendAPIGo_noop_dup env t MAX_RETRIES (0 + 1)
    ⟨t, st.reqCount + 1, st.requests ++ [t], st.delivered, st.errors⟩ ht rfl
  rw [callBackendAPI, callBackendAPIGo_succ, if_neg (jsTrim_guard_ne t ht),
    if_neg (fun h => hd h.symm)]
  rcases hout with h | h | ⟨m, h⟩ <;> rw [h] <;> exact hnoop

theorem callBackendAPI_outcome_cases (env : ℕ → ReqOutcome) (t : String)
    (st : OrchState) (ht : jsTrim t ≠ "") (hd : st.lastTranscript ≠ t) :
    ∃ dl : List Delivered, ∃ el : List ErrSurfaced,
      callBackendAPI env t 0 st =
        ⟨t, st.reqCount + 1, st.requests ++ [t], st.delivered ++ dl,
          st.errors ++ el⟩ := by
  have hguards : ∀ R : OrchState,
      (let st1 : OrchState :=
        { st with
          lastTranscript := t
          reqCount := st.reqCount + 1
          requests := st.requests ++ [t] }
      match env st.reqCount with
      | .okResult data =>
          { st1 with delivered := st1.delivered ++ [.analysis data] }
      | .okWeird data =>
          { st1 with delivered := st1.delivered ++ [.raw data] }
      | .httpError resp =>
          { st1 with
            errors := st1.errors ++ [.backend resp]
            delivered :=
              st1.delivered ++ [.fallback (provideFallbackAnalysis t)] }
      | .abortTimeout =>
          if 0 < MAX_RETRIES then callBackendAPIGo env t MAX_RETRIES (0 + 1) st1
          else
            { st1 with
              errors := st1.errors ++ [.timeout]
              delivered :=
                st1.delivered ++ [.fallback (provideFallbackAnalysis t)] }
      | .okFailure _ =>
          if 0 < MAX_RETRIES then callBackendAPIGo env t MAX_RETRIES (0 + 1) st1
          else
            { st1 with
              errors := st1.errors ++ [.network]
              delivered :=
                st1.delivered ++ [.fallback (provideFallbackAnalysis t)] }
      | .netError =>
          if 0 < MAX_RETRIES then callBackendAPIGo env t MAX_RETRIES (0 + 1) st1
          else
            { st1 with
              errors := st1.errors ++ [.network]
              delivered :=
                st1.delivered ++ [.fallback (provideFallbackAnalysis t)] }) = R →
      callBackendAPI env t 0 st = R := by
    intro R hR
    rw [callBackendAPI, callBackendAPIGo_succ, if_neg (jsTrim_guard_ne t ht),
      if_neg (fun h => hd h.symm)]
    exact hR
  cases henv : env st.reqCount with
  | okResult d =>
      exact ⟨[.analysis d], [], by
        rw [hguards _ (by rw [henv]), List.append_nil]⟩
  | okWeird d =>
      exact ⟨[.raw d], [], by
        rw [hguards _ (by rw [henv]), List.append_nil]⟩
  | httpError resp =>
      exact ⟨[.fallback (provideFallbackAnalysis t)], [.backend resp], by
        rw [hguards _ (by rw [henv])]⟩
  | abortTimeout =>
      refine ⟨[], [], ?_⟩
      rw [callBackendAPI_failure_eq env t st ht hd (Or.inl henv),
        List.append_nil, List.append_nil]
  | okFailure m =>
      refine ⟨[], [], ?_⟩
      rw [callBackendAPI_failure_eq env t st ht hd (Or.inr (Or.inr ⟨m, henv⟩)),
        List.append_nil, List.append_nil]
  | netError =>
      refine ⟨[], [], ?_⟩
      rw [callBackendAPI_failure_eq env t st ht hd (Or.inr (Or.inl henv)),
        List.append_nil, List.append_nil]

/-- C7: submitting the same non-empty text twice in a row triggers
exactly one backend request — one request is logged for the first
submission whatever its outcome, and the second, identical submission
is a complete no-op at the dedup guard — and a submission whose trimmed
text is empty is also a no-op. -/
theorem c7_duplicate_submission_noop (env : ℕ → ReqOutcome) (t : String)
    (st : OrchState) (ht : jsTrim t ≠ "") (hd : st.lastTranscript ≠ t) :
    (callBackendAPI env t 0 st).reqCount = st.reqCount + 1 ∧
    (callBackendAPI env t 0 st).requests = st.requests ++ [t] ∧
    callBackendAPI env t 0 (callBackendAPI env t 0 st) =
      callBackendAPI env t 0 st ∧
    (∀ s : String, jsTrim s = "" → callBackendAPI env s 0 st = st) := by
  obtain ⟨dl, el, heq⟩ := callBackendAPI_outcome_cases env t st ht hd
  refine ⟨by rw [heq], by rw [heq], ?_, ?_⟩
  · rw [heq]
    exact callBackendAPIGo_noop_dup env t (MAX_RETRIES + 1) 0 _ ht rfl
  · intro s hs
    exact callBackendAPIGo_noop_empty env s (MAX_RETRIES + 1) 0 st (Or.inr hs)

/-- Witness for C7: two submissions of `"hello"` from a fresh session
issue exactly one request, and a blank submission is a no-op. -/
theorem c7_duplicate_submission_noop_witness :
    (callBackendAPI c7Env "hello" 0 initState).reqCount = 1 ∧
    callBackendAPI c7Env "hello" 0 (callBackendAPI c7Env "hello" 0 initState) =
      callBackendAPI c7Env "hello" 0 initState ∧
    callBackendAPI c7Env " " 0 initState = initState := by
  have h := c7_duplicate_submission_noop c7Env "hello" initState
    (by decide) (by decide)
  exact ⟨h.1, h.2.2.1, h.2.2.2 " " rfl⟩

/-- C10: the last-submitted-text register is assigned before the
request is awaited, so when the first request for a fresh text `t`
fails by timeout or network error, the session ends with
`lastTranscript = t`, exactly one logged request, nothing delivered and
no error surfaced (the scheduled retry re-invocation dies at the dedup
guard), and an immediately following submission of the same `t` is a
complete no-op. -/
theorem c10_failure_primes_dedup (env : ℕ → ReqOutcome) (t : String)
    (st : OrchState) (ht : jsTrim t ≠ "") (hd : st.lastTranscript ≠ t)
    (hout : env st.reqCount = .abortTimeout ∨ env st.reqCount = .netError) :
    callBackendAPI env t 0 st =
      ⟨t, st.reqCount + 1, st.requests ++ [t], st.delivered, st.errors⟩ ∧
    callBackendAPI env t 0
        (⟨t, st.reqCount + 1, st.requests ++ [t], st.delivered,
          st.errors⟩ : OrchState) =
      ⟨t, st.reqCount + 1, st.requests ++ [t], st.delivered, st.errors⟩ :=
  ⟨callBackendAPI_failure_eq env t st ht hd
      (hout.elim Or.inl (fun h => Or.inr (Or.inl h))),
    callBackendAPIGo_noop_dup env t (MAX_RETRIES + 1) 0 _ ht rfl⟩

/-- Witness for C10 at the text `"retry me"` from a fresh session. -/
theorem c10_failure_primes_dedup_witness :
    callBackendAPI c10Env "retry me" 0 initState =
      ⟨"retry me", 1, ["retry me"], [], []⟩ ∧
    callBackendAPI c10Env "retry me" 0
        (⟨"retry me", 1, ["retry me"], [], []⟩ : OrchState) =
      ⟨"retry me", 1, ["retry me"], [], []⟩ := by
  have h := c10_failure_primes_dedup c10Env "retry me" initState
    (by decide) (by decide) (Or.inl rfl)
  exact h

/-- C1, evaluated at the failing input: a fresh submission of
`"hello world"` whose backend request times out ends with no payload
delivered to the result pipeline and no error surfaced to the error
observer — the timeout branch schedules a retry that the dedup guard
drops (`lastTranscriptRef` was assigned before the await), so the
promised fallback `AnalysisResult` never reaches the consumer. -/
theorem c1_timeout_drops_fallback :
    callBackendAPI c1Env "hello world" 0 initState =
      ⟨"hello world", 1, ["hello world"], [], []⟩ ∧
    (callBackendAPI c1Env "hello world" 0 initState).delivered = [] ∧
    (callBackendAPI c1Env "hello world" 0 initState).errors = [] :=
  ⟨rfl, rfl, rfl⟩
